import Mathlib

/-!
Verification of the mesh-router-backend control plane against its
specification.  The definitions below are a shallow embedding of the
TypeScript sources: Firestore is a list of `(docId, record)` pairs, the
Redis route store is a list of `(key, lease)` pairs with explicit expiry
timestamps, and fallible operations return `Except String`.
-/

namespace MeshRouter

/-! ## Identity records (src/DataBaseDTO/DataBaseNSLRouter.ts)

`NSLRouterData` models the Firestore document.  A JS field that may be
`undefined` is an `Option`; the same structure doubles as the "partial"
argument of `updateUserDomain`, where `none` means the field is absent. -/

structure NSLRouterData where
  serverDomain : Option String := none
  domainName : Option String := none
  publicKey : Option String := none
  lastSeenOnline : Option String := none
  deriving DecidableEq, Repr

/-- The `nsl-router` Firestore collection: document id paired with data. -/
def Firestore := List (String × NSLRouterData)

instance : DecidableEq Firestore := by
  unfold Firestore
  infer_instance

deriving instance DecidableEq for Except

/-! ## Domain.ts -/

/-- One character of the `/^[a-z0-9]+$/` class in `validateDomainName`. -/
def isLowerAlnum (c : Char) : Bool :=
  (('a' ≤ c) && (c ≤ 'z')) || (('0' ≤ c) && (c ≤ '9'))

structure ValidationResult where
  isValid : Bool
  message : String
  deriving DecidableEq, Repr

/-- Embeds `validateDomainName` (Domain.ts:15-35).  The regex `^[a-z0-9]+$`
requires a non-empty string, but the empty case returned earlier, so the
character scan alone is faithful on the remaining branch. -/
def validateDomainName (domain : String) : ValidationResult :=
  if domain = "" then ⟨false, "Domain name cannot be empty."⟩
  else if domain.length > 63 then
    ⟨false, "Domain name cannot be longer than 63 characters."⟩
  else if !(domain.toList.all isLowerAlnum) then
    ⟨false, "Domain name can only contain lowercase letters and numbers."⟩
  else ⟨true, "Domain name is valid."⟩

/-- Embeds `getDomain` (Domain.ts:42-63): throws on an empty or invalid label,
otherwise returns the first document whose `domainName` equals the label
(the Firestore `where('domainName','==',domain)` query), or `none`. -/
def getDomain (domain : String) (db : Firestore) :
    Except String (Option (String × NSLRouterData)) :=
  if domain = "" then .error "Domain name is required for availability check."
  else
    let validation := validateDomainName domain
    if !validation.isValid then .error validation.message
    else .ok ((db.find? (fun e => e.2.domainName == some domain)).map
      (fun e => (e.1, e.2)))

def RESERVED_DOMAINS : List String := ["root", "app", "www"]

structure Availability where
  available : Bool
  message : String
  deriving DecidableEq, Repr

/-- Embeds `checkDomainAvailability` (Domain.ts:72-91). -/
def checkDomainAvailability (domain : String) (db : Firestore) :
    Except String Availability :=
  if domain = "" then .error "Domain name is required."
  else
    let validation := validateDomainName domain
    if !validation.isValid then .ok ⟨false, validation.message⟩
    else if domain ∈ RESERVED_DOMAINS then
      .ok ⟨false, "Domain name is not available."⟩
    else
      match getDomain domain db with
      | .error e => .error e
      | .ok existing =>
        .ok ⟨existing.isNone,
          if existing.isNone then "Domain name is available."
          else "Domain name is not available."⟩

/-- Number of defined fields of a partial update; `Object.entries`
filtering of `undefined` values in `updateUserDomain` keeps exactly the
`some` fields. -/
def presentCount (p : NSLRouterData) : Nat :=
  (if p.serverDomain.isSome then 1 else 0) +
  (if p.domainName.isSome then 1 else 0) +
  (if p.publicKey.isSome then 1 else 0) +
  (if p.lastSeenOnline.isSome then 1 else 0)

/-- Firestore `set(..., {merge:true})`: fields present in the partial
overwrite the stored document, absent fields are kept. -/
def mergeData (base p : NSLRouterData) : NSLRouterData :=
  { serverDomain := match p.serverDomain with | some v => some v | none => base.serverDomain
    domainName := match p.domainName with | some v => some v | none => base.domainName
    publicKey := match p.publicKey with | some v => some v | none => base.publicKey
    lastSeenOnline := match p.lastSeenOnline with | some v => some v | none => base.lastSeenOnline }

/-- Embeds `updateUserDomain` (Domain.ts:112-149).  The ownership check runs
only when `domainName` is truthy (present and non-empty); a failed check
throws before anything is written. -/
def updateUserDomain (userId : String) (domainData : NSLRouterData)
    (db : Firestore) : Except String Firestore :=
  let ownCheck : Except String Unit :=
    match domainData.domainName with
    | some d =>
      if d = "" then .ok ()
      else
        let validation := validateDomainName d
        if !validation.isValid then .error validation.message
        else
          match getDomain d db with
          | .error e => .error e
          | .ok dom =>
            let isAvailable := dom.isNone
            let isOwned := (dom.map (fun e => e.1)) == some userId
            if !isAvailable && !isOwned then
              .error (if dom.isSome then "Domain name is not owned by you."
                else "Domain name is already in use.")
            else .ok ()
    | none => .ok ()
  match ownCheck with
  | .error e => .error e
  | .ok _ =>
    if presentCount domainData = 0 then
      .error "No valid data provided for update"
    else
      let base := match db.find? (fun e => e.1 == userId) with
        | some e => e.2
        | none => {}
      .ok ((db.filter (fun e => e.1 != userId)) ++
        [(userId, mergeData base domainData)])

/-! ## Claims about Domain.ts -/

/-- C6: `checkDomainAvailability` checks syntax, then the reserved set
`{root, app, www}`, then `getDomain`; when it reports available, no
document owns the label. -/
theorem C6_checkAvailability_order (L : String) (db : Firestore) :
    (∀ r, checkDomainAvailability L db = .ok r → r.available = true →
      getDomain L db = .ok none)
    ∧ ((validateDomainName L).isValid = false → L ≠ "" →
      checkDomainAvailability L db = .ok ⟨false, (validateDomainName L).message⟩)
    ∧ ((validateDomainName L).isValid = true → L ∈ RESERVED_DOMAINS →
      checkDomainAvailability L db = .ok ⟨false, "Domain name is not available."⟩)
    ∧ ((validateDomainName L).isValid = true → L ∉ RESERVED_DOMAINS →
      ∀ r, checkDomainAvailability L db = .ok r →
        (r.available = true ↔ getDomain L db = .ok none)) := by
  refine ⟨?_, ?_, ?_, ?_⟩
  · intro r hok hav
    by_cases hL : L = ""
    · simp [checkDomainAvailability, hL] at hok
    · cases hv : (validateDomainName L).isValid with
      | false =>
        simp [checkDomainAvailability, hL, hv] at hok
        rw [← hok] at hav
        simp at hav
      | true =>
        by_cases hres : L ∈ RESERVED_DOMAINS
        · simp [checkDomainAvailability, hL, hv, hres] at hok
          rw [← hok] at hav
          simp at hav
        · cases hfind : db.find? (fun e => e.2.domainName == some L) with
          | none => simp [getDomain, hL, hv, hfind]
          | some e =>
            simp [checkDomainAvailability, getDomain, hL, hv, hres, hfind] at hok
            rw [← hok] at hav
            simp at hav
  · intro hv hL
    simp [checkDomainAvailability, hL, hv]
  · intro hv hres
    have hL : L ≠ "" := by
      intro h
      rw [h] at hv
      simp [validateDomainName] at hv
    simp [checkDomainAvailability, hL, hv, hres]
  · intro hv hres r hok
    have hL : L ≠ "" := by
      intro h
      rw [h] at hv
      simp [validateDomainName] at hv
    cases hfind : db.find? (fun e => e.2.domainName == some L) with
    | none =>
      simp [checkDomainAvailability, getDomain, hL, hv, hres, hfind] at hok ⊢
      rw [← hok]
    | some e =>
      simp [checkDomainAvailability, getDomain, hL, hv, hres, hfind] at hok ⊢
      rw [← hok]

/-- C6 witness: a concrete available label with an empty store. -/
theorem C6_checkAvailability_order_witness : getDomain "alice" [] = .ok none :=
  (C6_checkAvailability_order "alice" []).1 ⟨true, "Domain name is available."⟩
    rfl rfl

/-- C7: an upsert whose partial carries a domain label owned by a
different user id fails with the "not owned" error (nothing is written:
the operation returns before the store write), and an upsert whose
partial has only undefined fields is rejected with
"No valid data provided for update". -/
theorem C7_upsert_not_owned (userId : String) (p : NSLRouterData)
    (db : Firestore) (d uid' : String) (rec : NSLRouterData)
    (hdn : p.domainName = some d) (hne : d ≠ "")
    (hvalid : (validateDomainName d).isValid = true)
    (hown : getDomain d db = .ok (some (uid', rec))) (hdiff : uid' ≠ userId) :
    updateUserDomain userId p db = .error "Domain name is not owned by you."
    ∧ ∀ q : NSLRouterData, presentCount q = 0 →
      updateUserDomain userId q db = .error "No valid data provided for update" := by
  constructor
  · unfold updateUserDomain
    simp [hdn, hne, hvalid, hown, hdiff]
  · intro q hq
    have hqd : q.domainName = none := by
      unfold presentCount at hq
      by_contra h
      cases hd : q.domainName with
      | none => exact h hd
      | some v => simp [hd] at hq
    unfold updateUserDomain
    simp [hqd, hq]

/-- C7 witness: `alice` is owned by `u1`; `u2`'s upsert fails with the
"not owned" error, and an all-undefined partial is rejected. -/
theorem C7_upsert_not_owned_witness :
    updateUserDomain "u2"
      { domainName := some "alice", publicKey := some "P2" }
      [("u1", { domainName := some "alice", publicKey := some "P1" })]
      = .error "Domain name is not owned by you."
    ∧ updateUserDomain "u2" {}
      [("u1", { domainName := some "alice", publicKey := some "P1" })]
      = .error "No valid data provided for update" := by
  have h := C7_upsert_not_owned "u2"
    { domainName := some "alice", publicKey := some "P2" }
    [("u1", { domainName := some "alice", publicKey := some "P1" })]
    "alice" "u1" { domainName := some "alice", publicKey := some "P1" }
    rfl (by decide) (by decide) (by decide) (by decide)
  exact ⟨h.1, h.2 {} (by decide)⟩

/-! ## String splitting

JS `String.prototype.split(sep)` for a non-empty separator: leftmost,
non-overlapping matches.  Implemented with explicit fuel (one unit per
consumed character) so that concrete evaluations reduce in the kernel. -/

def splitGo (sep : List Char) : Nat → List Char → List Char → List (List Char)
  | _, [], acc => [acc.reverse]
  | 0, _ :: _, acc => [acc.reverse]
  | Nat.succ fuel, c :: rest, acc =>
    if sep.isPrefixOf (c :: rest) && !sep.isEmpty then
      acc.reverse :: splitGo sep fuel ((c :: rest).drop sep.length) []
    else
      splitGo sep fuel rest (c :: acc)

/-- JS `s.split(sep)` for non-empty `sep` (the only way it is used). -/
def jsSplit (s sep : String) : List String :=
  (splitGo sep.toList s.toList.length s.toList []).map (fun l => String.mk l)

/-- JS `s.includes(pat)` / `String.prototype.includes` via split. -/
def strIncludes (s pat : String) : Bool :=
  (jsSplit s pat).length > 1

/-! ## IP literal validation (Domain.ts:219-276) -/

def isDigitChar (c : Char) : Bool := ('0' ≤ c) && (c ≤ '9')

/-- One alternative of the anchored IPv4 regex: an octet is
`25[0-5] | 2[0-4][0-9] | [01]?[0-9][0-9]?`. -/
def matchOctet (t : String) : Bool :=
  match t.toList with
  | [a] => isDigitChar a
  | [a, b] => isDigitChar a && isDigitChar b
  | [a, b, c] =>
    ((a == '2') && (b == '5') && ('0' ≤ c) && (c ≤ '5')) ||
    ((a == '2') && ('0' ≤ b) && (b ≤ '4') && isDigitChar c) ||
    (((a == '0') || (a == '1')) && isDigitChar b && isDigitChar c)
  | _ => false

/-- Embeds `isValidIPv4` (Domain.ts:219-222): the anchored regex
`^(octet\.){3}octet$` is equivalent to "exactly four dot-separated
octets". -/
def isValidIPv4 (ip : String) : Bool :=
  let parts := jsSplit ip "."
  (parts.length == 4) && parts.all matchOctet

def isHexDigitChar (c : Char) : Bool :=
  isDigitChar c || (('a' ≤ c) && (c ≤ 'f')) || (('A' ≤ c) && (c ≤ 'F'))

/-- Matches `/^[0-9a-fA-F]{1,4}$/` on one group. -/
def isHexGroup (g : String) : Bool :=
  (1 ≤ g.length) && (g.length ≤ 4) && g.toList.all isHexDigitChar

/-- Embeds `isValidIPv6` (Domain.ts:230-267).  The `::` count uses the same
leftmost non-overlapping matching as the JS `/::/g` global regex. -/
def isValidIPv6 (ip : String) : Bool :=
  let class1 := (ip ≠ "") && ip.toList.all (fun c => isHexDigitChar c || (c == ':'))
  let class2 := (ip ≠ "") && ip.toList.all (fun c => isHexDigitChar c || (c == ':') || (c == '.'))
  if !class1 && !class2 then false
  else
    let parts := jsSplit ip "::"
    if parts.length - 1 > 1 then false
    else if parts.length ≥ 2 then
      let l := parts.headD ""
      let r := (parts.drop 1).headD ""
      let left := if l = "" then [] else jsSplit l ":"
      let right := if r = "" then [] else jsSplit r ":"
      if left.length + right.length > 7 then false
      else (left ++ right).all (fun g => (g == "") || isHexGroup g)
    else
      let groups := jsSplit ip ":"
      (groups.length == 8) && groups.all isHexGroup

/-- Embeds `isValidIpAddress` (Domain.ts:274-276). -/
def isValidIpAddress (ip : String) : Bool :=
  isValidIPv4 ip || isValidIPv6 ip

/-! ## Routes.ts -/

structure RouteHealthCheck where
  path : String
  host : Option String := none
  deriving DecidableEq, Repr

/-- A route entry.  Fields that JS may leave `undefined` are `Option`;
in particular `source` is declared `source: string` in the interface but
nothing checks it at runtime, so a JS object without it is modelled as
`source := none`.  The `type` field is renamed `rtype`. -/
structure Route where
  ip : String
  port : Int
  priority : Int
  scheme : Option String := none
  healthCheck : Option RouteHealthCheck := none
  source : Option String := none
  rtype : Option String := none
  domain : Option String := none
  verify : Option Bool := none
  deriving DecidableEq, Repr

/-- JS `x || default` on an optional string: `undefined` and `""` both
fall back to the default. -/
def jsOr (o : Option String) (d : String) : String :=
  match o with
  | some s => if s = "" then d else s
  | none => d

/-- Embeds `getRoutesKey` (Routes.ts:36-38): one shared key per user. -/
def getRoutesKey (userId : String) : String := "routes:" ++ userId

/-- Embeds `getRouteKey` (Routes.ts:45-50): composite
`ip:port:scheme:type:domain` key. -/
def getRouteKey (route : Route) : String :=
  route.ip ++ ":" ++ toString route.port ++ ":" ++ jsOr route.scheme "https"
    ++ ":" ++ jsOr route.rtype "ip" ++ ":" ++ jsOr route.domain ""

/-- A stored Redis value with its absolute expiry instant. -/
structure Lease where
  routes : List Route
  expiresAt : Int
  deriving DecidableEq, Repr

/-- The Redis state used by Routes.ts: the `routes:{userId}` keys and
the `domains:activity` sorted set (member, score). -/
structure RoutesState where
  kv : List (String × Lease)
  activity : List (String × Int)
  deriving DecidableEq, Repr

/-- Models `redis.get`: a key whose expiry has passed behaves as absent. -/
def redisGet (kv : List (String × Lease)) (now : Int) (key : String) :
    Option (List Route) :=
  match kv.find? (fun e => e.1 == key) with
  | some e => if now < e.2.expiresAt then some e.2.routes else none
  | none => none

/-- Models `redis.setex`: store the value and (re)set the key's expiry. -/
def redisSetex (kv : List (String × Lease)) (key : String)
    (value : List Route) (expiresAt : Int) : List (String × Lease) :=
  (kv.filter (fun e => e.1 != key)) ++ [(key, ⟨value, expiresAt⟩)]

/-- Models `redis.zadd`: overwrite the member's score. -/
def zadd (activity : List (String × Int)) (member : String) (score : Int) :
    List (String × Int) :=
  (activity.filter (fun e => e.1 != member)) ++ [(member, score)]

/-- The per-route validation loop of `registerRoutes` (Routes.ts:69-80):
only `ip` truthiness and the port range are checked; `source` and the IP
format are not.  `priority` is a number by construction in this model,
so its `typeof` check cannot fire. -/
def validateRoute (r : Route) : Option String :=
  if r.ip = "" then some "Route IP is required."
  else if (r.port < 1) || (r.port > 65535) then
    some "Route port must be between 1 and 65535."
  else none

def validateRoutes : List Route → Option String
  | [] => none
  | r :: rs =>
    match validateRoute r with
    | some msg => some msg
    | none => validateRoutes rs

/-- One `Map.set` of the merge in `registerRoutes`: a JS `Map` keeps the
first-insertion position of a key, so an existing key is replaced in
place and a fresh key is appended. -/
def mapSet (m : List (String × Route)) (k : String) (v : Route) :
    List (String × Route) :=
  if m.any (fun e => e.1 == k) then
    m.map (fun e => if e.1 == k then (k, v) else e)
  else m ++ [(k, v)]

/-- The `for (const route of …) routeMap.set(getRouteKey(route), route)`
loops of Routes.ts:104-112. -/
def insertRoutes (m : List (String × Route)) (rs : List Route) :
    List (String × Route) :=
  rs.foldl (fun m r => mapSet m (getRouteKey r) r) m

/-- Embeds `registerRoutes` (Routes.ts:60-122): validate, read the single
shared key `routes:{userId}`, drop the existing routes whose `source`
occurs among the incoming routes, merge by composite route key, `setex`
the merged array with the full configured TTL, and update the activity
sorted set.  `cfgTtl` is `getRoutesTtl()`; `now` is the current instant
on one abstract clock. -/
def registerRoutes (cfgTtl now : Int) (userId : String)
    (routes : List Route) (s : RoutesState) : Except String RoutesState :=
  if userId = "" then .error "User ID is required."
  else if routes.isEmpty then .error "At least one route is required."
  else
    match validateRoutes routes with
    | some msg => .error msg
    | none =>
      let key := getRoutesKey userId
      let existingRoutes := (redisGet s.kv now key).getD []
      let incomingSources := routes.map (fun r => r.source)
      let existingFiltered :=
        existingRoutes.filter (fun r => !(incomingSources.contains r.source))
      let routeMap := insertRoutes (insertRoutes [] existingFiltered) routes
      let mergedRoutes := routeMap.map (fun e => e.2)
      .ok { kv := redisSetex s.kv key mergedRoutes (now + cfgTtl),
            activity := zadd s.activity userId now }

/-! ## Claims C3 and C4 about route validation -/

theorem validateRoutes_eq_none (routes : List Route)
    (h : ∀ r ∈ routes, r.ip ≠ "" ∧ 1 ≤ r.port ∧ r.port ≤ 65535) :
    validateRoutes routes = none := by
  induction routes with
  | nil => rfl
  | cons r rs ih =>
    obtain ⟨hip, h1, h2⟩ := h r (by simp)
    have hr : validateRoute r = none := by
      unfold validateRoute
      have hp1 : ¬(r.port < 1) := by omega
      have hp2 : ¬(r.port > 65535) := by omega
      simp [hip, hp1, hp2]
    simp only [validateRoutes, hr]
    exact ih (fun r hr => h r (by simp [hr]))

/-- C3 (code evaluation at the failing input): `registerRoutes` accepts
a batch whose only route has no `source` field and stores it under
`routes:u1`; the batch is not rejected, contrary to the spec and to the
repository's own test "should reject route without source field". -/
theorem C3_register_accepts_missing_source :
    registerRoutes 600 0 "u1"
      [{ ip := "10.77.0.100", port := 443, priority := 1 }] ⟨[], []⟩
      = .ok ⟨[("routes:u1",
          ⟨[{ ip := "10.77.0.100", port := 443, priority := 1 }], 600⟩)],
        [("u1", 0)]⟩ := rfl

/-- C4 counterexample: a route whose `ip` is `1::2::3` (an IPv6 literal
with two `::` compressions, rejected by `isValidIpAddress`) is accepted
and stored by `registerRoutes` — the registration does not fail. -/
theorem C4_counterexample_register_invalid_ip :
    registerRoutes 600 0 "u1"
      [{ ip := "1::2::3", port := 443, priority := 1, source := some "agent" }]
      ⟨[], []⟩
      = .ok ⟨[("routes:u1",
          ⟨[{ ip := "1::2::3", port := 443, priority := 1,
              source := some "agent" }], 600⟩)],
        [("u1", 0)]⟩
    ∧ isValidIpAddress "1::2::3" = false := ⟨rfl, rfl⟩

/-- C4 amended: `registerRoutes` performs no IP-format validation — any
batch of routes with non-empty `ip` strings and in-range ports succeeds,
whatever `isValidIpAddress` says of the `ip` strings.  The (unused at
registration) `isValidIPv6` helper itself accepts exactly one `::`
(e.g. `::1`) and rejects a literal with two `::`. -/
theorem C4_register_no_ip_format_check (cfgTtl now : Int) (userId : String)
    (routes : List Route) (s : RoutesState) (hu : userId ≠ "")
    (hne : routes ≠ [])
    (hv : ∀ r ∈ routes, r.ip ≠ "" ∧ 1 ≤ r.port ∧ r.port ≤ 65535) :
    (∃ s', registerRoutes cfgTtl now userId routes s = .ok s')
    ∧ isValidIPv6 "::1" = true ∧ isValidIPv6 "1::2::3" = false := by
  refine ⟨?_, rfl, rfl⟩
  unfold registerRoutes
  simp [hu, hne, validateRoutes_eq_none routes hv]

/-- C4 witness: a non-IP string `not-an-ip` registers fine. -/
theorem C4_register_no_ip_format_check_witness :
    (∃ s', registerRoutes 600 0 "u1"
      [{ ip := "not-an-ip", port := 443, priority := 1, source := some "agent" }]
      ⟨[], []⟩ = .ok s')
    ∧ isValidIPv6 "::1" = true ∧ isValidIPv6 "1::2::3" = false :=
  C4_register_no_ip_format_check 600 0 "u1"
    [{ ip := "not-an-ip", port := 443, priority := 1, source := some "agent" }]
    ⟨[], []⟩ (by decide) (by decide) (by decide)

/-! ## Claim C1: replacement semantics and the shared TTL -/

theorem find?_redisSetex (kv : List (String × Lease)) (key : String)
    (value : List Route) (exp : Int) :
    (redisSetex kv key value exp).find? (fun e => e.1 == key)
      = some (key, ⟨value, exp⟩) := by
  unfold redisSetex
  induction kv with
  | nil => simp
  | cons e kv ih =>
    by_cases h : e.1 = key
    · simp [h, ih]
    · simp [h, ih]

theorem mapSet_values_mem (m : List (String × Route)) (k : String) (v : Route)
    (x : Route) (hx : x ∈ (mapSet m k v).map (fun e => e.2)) :
    x ∈ m.map (fun e => e.2) ∨ x = v := by
  unfold mapSet at hx
  by_cases h : m.any (fun e => e.1 == k)
  · simp only [h, if_true, List.map_map, List.mem_map] at hx
    rcases hx with ⟨a, ha, hae⟩
    by_cases hk : a.1 = k
    · right
      simpa [Function.comp, hk] using hae.symm
    · left
      rw [List.mem_map]
      exact ⟨a, ha, by simpa [Function.comp, hk] using hae⟩
  · simp only [Bool.not_eq_true] at h
    simp only [h, Bool.false_eq_true, if_false, List.map_append, List.mem_append,
      List.map_cons, List.map_nil, List.mem_singleton] at hx
    exact hx

theorem insertRoutes_values_mem (rs : List Route) (m : List (String × Route))
    (x : Route) (hx : x ∈ (insertRoutes m rs).map (fun e => e.2)) :
    x ∈ m.map (fun e => e.2) ∨ x ∈ rs := by
  induction rs generalizing m with
  | nil => exact Or.inl (by simpa [insertRoutes] using hx)
  | cons r rs ih =>
    simp only [insertRoutes, List.foldl_cons] at hx
    rcases ih (mapSet m (getRouteKey r) r) hx with h | h
    · rcases mapSet_values_mem _ _ _ _ h with h' | h'
      · exact Or.inl h'
      · exact Or.inr (by simp [h'])
    · exact Or.inr (by simp [h])

theorem mapSet_fresh (m : List (String × Route)) (k : String) (v : Route)
    (h : ∀ e ∈ m, e.1 ≠ k) : mapSet m k v = m ++ [(k, v)] := by
  unfold mapSet
  have hany : m.any (fun e => e.1 == k) = false := by
    rw [List.any_eq_false]
    intro e he
    simpa using h e he
  simp [hany]

theorem insertRoutes_fresh (l : List Route) (m : List (String × Route))
    (hnd : (l.map getRouteKey).Nodup)
    (hfresh : ∀ r ∈ l, ∀ e ∈ m, e.1 ≠ getRouteKey r) :
    insertRoutes m l = m ++ l.map (fun r => (getRouteKey r, r)) := by
  induction l generalizing m with
  | nil => simp [insertRoutes]
  | cons r l ih =>
    simp only [insertRoutes, List.foldl_cons]
    rw [show mapSet m (getRouteKey r) r = m ++ [(getRouteKey r, r)] from
      mapSet_fresh _ _ _ (fun e he => hfresh r (by simp) e he)]
    have hnd2 := hnd
    rw [List.map_cons, List.nodup_cons] at hnd2
    obtain ⟨hhead, hnd'⟩ := hnd2
    have hfresh' : ∀ r' ∈ l, ∀ e ∈ m ++ [(getRouteKey r, r)],
        e.1 ≠ getRouteKey r' := by
      intro r' hr' e he
      rcases List.mem_append.mp he with he | he
      · exact hfresh r' (by simp [hr']) e he
      · simp only [List.mem_singleton] at he
        subst he
        intro hcontra
        apply hhead
        have hkr : getRouteKey r = getRouteKey r' := hcontra
        rw [hkr]
        exact List.mem_map_of_mem _ hr'
    calc insertRoutes (m ++ [(getRouteKey r, r)]) l
        = (m ++ [(getRouteKey r, r)]) ++ l.map (fun r => (getRouteKey r, r)) :=
          ih _ hnd' hfresh'
      _ = m ++ (r :: l).map (fun r => (getRouteKey r, r)) := by simp

theorem mapSet_entries_P (m : List (String × Route)) (k : String) (v : Route)
    (P : Route → Bool) (hv : P v = false) :
    ∀ e ∈ mapSet m k v, P e.2 = true → e ∈ m := by
  intro e he hPe
  unfold mapSet at he
  by_cases h : m.any (fun e => e.1 == k)
  · simp only [h, if_true, List.mem_map] at he
    rcases he with ⟨a, ha, hae⟩
    by_cases hk : a.1 = k
    · rw [← hae] at hPe
      simp [hk, hv] at hPe
    · rw [← hae]
      simpa [hk] using ha
  · simp only [Bool.not_eq_true] at h
    simp only [h, Bool.false_eq_true, if_false, List.mem_append,
      List.mem_singleton] at he
    rcases he with he | he
    · exact he
    · subst he
      simp [hv] at hPe

theorem map_replace_filter (m : List (String × Route)) (k : String) (v : Route)
    (P : Route → Bool) (hv : P v = false)
    (hm : ∀ e ∈ m, P e.2 = true → e.1 ≠ k) :
    ((m.map (fun e => if e.1 == k then (k, v) else e)).map (fun e => e.2)).filter P
      = (m.map (fun e => e.2)).filter P := by
  induction m with
  | nil => simp
  | cons a m ih =>
    have ih' := ih (fun e he hPe => hm e (by simp [he]) hPe)
    simp only [List.map_map] at ih' ⊢
    simp only [beq_iff_eq] at ih' ⊢
    by_cases hk : a.1 = k
    · have hPa : P a.2 = false := by
        by_contra h'
        exact hm a (by simp) (by revert h'; cases P a.2 <;> simp) hk
      simp [hk, hv, hPa, ih']
    · cases hPa : P a.2 <;> simp [hk, hPa, List.filter_cons, ih']

theorem mapSet_filter_P (m : List (String × Route)) (k : String) (v : Route)
    (P : Route → Bool) (hv : P v = false)
    (hm : ∀ e ∈ m, P e.2 = true → e.1 ≠ k) :
    ((mapSet m k v).map (fun e => e.2)).filter P
      = (m.map (fun e => e.2)).filter P := by
  unfold mapSet
  by_cases h : m.any (fun e => e.1 == k)
  · simp only [h, if_true]
    exact map_replace_filter m k v P hv hm
  · simp only [Bool.not_eq_true] at h
    simp [h, List.filter_append, hv]

theorem insertRoutes_filter_P (rs : List Route) (m : List (String × Route))
    (P : Route → Bool) (hrs : ∀ r ∈ rs, P r = false)
    (hm : ∀ e ∈ m, P e.2 = true → ∀ r ∈ rs, e.1 ≠ getRouteKey r) :
    ((insertRoutes m rs).map (fun e => e.2)).filter P
      = (m.map (fun e => e.2)).filter P := by
  induction rs generalizing m with
  | nil => simp [insertRoutes]
  | cons r rs ih =>
    have hPr : P r = false := hrs r (by simp)
    have step := mapSet_filter_P m (getRouteKey r) r P hPr
      (fun e he hPe => hm e he hPe r (by simp))
    have hm' : ∀ e ∈ mapSet m (getRouteKey r) r, P e.2 = true →
        ∀ r' ∈ rs, e.1 ≠ getRouteKey r' := by
      intro e he hPe r' hr'
      exact hm e (mapSet_entries_P m (getRouteKey r) r P hPr e he hPe) hPe r'
        (by simp [hr'])
    have hrec := ih (mapSet m (getRouteKey r) r)
      (fun r' h => hrs r' (by simp [h])) hm'
    calc ((insertRoutes m (r :: rs)).map (fun e => e.2)).filter P
        = ((insertRoutes (mapSet m (getRouteKey r) r) rs).map
            (fun e => e.2)).filter P := rfl
      _ = (((mapSet m (getRouteKey r) r)).map (fun e => e.2)).filter P := hrec
      _ = (m.map (fun e => e.2)).filter P := step

theorem map_snd_keyed (l : List Route) :
    (l.map (fun r => (getRouteKey r, r))).map (fun e => e.2) = l := by
  induction l with
  | nil => rfl
  | cons a l ih => simp only [List.map_cons, ih]

theorem sources_contains_eq_false (rs : List Route) (S S' : String)
    (hsrc : ∀ r ∈ rs, r.source = some S) (hS' : S' ≠ S) :
    ((rs.map (fun r => r.source)).contains (some S')) = false := by
  have hmem : some S' ∉ rs.map (fun r => r.source) := by
    intro h'
    rcases List.mem_map.mp h' with ⟨r, hr, hrs⟩
    rw [hsrc r hr] at hrs
    exact hS' (Option.some.inj hrs).symm
  cases hc : ((rs.map (fun r => r.source)).contains (some S')) with
  | false => rfl
  | true => exact absurd (List.elem_iff.mp hc) hmem

/-- C1 counterexample: with the configured TTL 600 and a stored lease
from source `tunnel` whose remaining TTL is 100 (it expires at instant
100, now being 0), a register call from source `agent` rewrites the
single shared key: the tunnel route is kept, but the key now expires at
600 — the tunnel lease's remaining TTL jumped from 100 to 600, i.e. it
WAS refreshed, contradicting the claim. -/
theorem C1_counterexample_ttl_refreshed :
    registerRoutes 600 0 "u1"
      [{ ip := "1.1.1.1", port := 443, priority := 1, source := some "agent" }]
      ⟨[("routes:u1",
          ⟨[{ ip := "10.77.0.1", port := 443, priority := 2,
              source := some "tunnel" }], 100⟩)], []⟩
      = .ok ⟨[("routes:u1",
          ⟨[{ ip := "10.77.0.1", port := 443, priority := 2,
              source := some "tunnel" },
            { ip := "1.1.1.1", port := 443, priority := 1,
              source := some "agent" }], 600⟩)],
        [("u1", 0)]⟩
    ∧ (600 : Int) ≠ 100 := ⟨rfl, by decide⟩

/-- C1 amended: a register call whose routes all carry source `S` wholly
replaces the routes from `S` (every stored `S`-route comes from the
incoming batch) and preserves the stored routes of any other source `S'`
verbatim (given the lease's composite-key uniqueness invariant and no
key collision between the incoming batch and the `S'` routes).  But all
sources share the single key `routes:{userId}`, so the call resets that
key's expiry to `now + cfgTtl`: the `S'` lease's TTL is refreshed — it
is never shortened (the old expiry `oldExp` satisfies
`oldExp - now ≤ cfgTtl`, hence `oldExp ≤ now + cfgTtl`), but it is not
left untouched. -/
theorem C1_register_refreshes_shared_ttl
    (cfgTtl now : Int) (userId S S' : String) (rs : List Route)
    (s s' : RoutesState) (ex : List Route) (oldExp : Int)
    (hfound : s.kv.find? (fun e => e.1 == getRoutesKey userId)
      = some (getRoutesKey userId, ⟨ex, oldExp⟩))
    (hlive : now < oldExp)
    (hreg : registerRoutes cfgTtl now userId rs s = .ok s')
    (hsrc : ∀ r ∈ rs, r.source = some S)
    (hS' : S' ≠ S)
    (hnd : (ex.map getRouteKey).Nodup)
    (hnocol : ∀ r' ∈ ex, r'.source = some S' →
      ∀ rin ∈ rs, getRouteKey rin ≠ getRouteKey r') :
    ∃ stored : List Route,
      s'.kv.find? (fun e => e.1 == getRoutesKey userId)
        = some (getRoutesKey userId, ⟨stored, now + cfgTtl⟩)
      ∧ stored.filter (fun r => r.source == some S')
          = ex.filter (fun r => r.source == some S')
      ∧ (∀ r ∈ stored, r.source = some S → r ∈ rs)
      ∧ (oldExp - now ≤ cfgTtl → oldExp ≤ now + cfgTtl) := by
  have hu : userId ≠ "" := by
    intro h
    simp [registerRoutes, h] at hreg
  have hne : rs ≠ [] := by
    intro h
    subst h
    simp [registerRoutes, hu] at hreg
  have hval : validateRoutes rs = none := by
    cases hv : validateRoutes rs with
    | none => rfl
    | some m => simp [registerRoutes, hu, hne, hv] at hreg
  have hget : redisGet s.kv now (getRoutesKey userId) = some ex := by
    simp [redisGet, hfound, hlive]
  have hne' : rs.isEmpty = false := by
    cases rs with
    | nil => exact absurd rfl hne
    | cons a l => rfl
  unfold registerRoutes at hreg
  rw [if_neg hu] at hreg
  rw [hne'] at hreg
  simp only [Bool.false_eq_true, if_false, hval, hget, Option.getD_some] at hreg
  rw [Except.ok.injEq] at hreg
  subst hreg
  have hndF : ((ex.filter
      (fun r => !((rs.map (fun r => r.source)).contains r.source))).map
        getRouteKey).Nodup :=
    hnd.sublist ((List.filter_sublist _).map getRouteKey)
  have hm1 : insertRoutes []
      (ex.filter (fun r => !((rs.map (fun r => r.source)).contains r.source)))
      = (ex.filter
          (fun r => !((rs.map (fun r => r.source)).contains r.source))).map
        (fun r => (getRouteKey r, r)) := by
    have h := insertRoutes_fresh
      (ex.filter (fun r => !((rs.map (fun r => r.source)).contains r.source)))
      [] hndF (by intro r hr e he; simp at he)
    rw [List.nil_append] at h
    exact h
  have hm1vals : (insertRoutes []
      (ex.filter
        (fun r => !((rs.map (fun r => r.source)).contains r.source)))).map
      (fun e => e.2)
      = ex.filter
          (fun r => !((rs.map (fun r => r.source)).contains r.source)) := by
    rw [hm1, map_snd_keyed]
  refine ⟨_, find?_redisSetex _ _ _ _, ?_, ?_, ?_⟩
  · -- routes of source S' are preserved verbatim
    have hcont := sources_contains_eq_false rs S S' hsrc hS'
    have hPrs : ∀ r ∈ rs,
        (fun r => r.source == some S') r = false := by
      intro r hr
      have hne2 : ¬(r.source = some S') := by
        rw [hsrc r hr]
        intro h
        exact hS' (Option.some.inj h).symm
      simpa using hne2
    have hmP : ∀ e ∈ insertRoutes []
        (ex.filter
          (fun r => !((rs.map (fun r => r.source)).contains r.source))),
        (fun r => r.source == some S') e.2 = true →
        ∀ r ∈ rs, e.1 ≠ getRouteKey r := by
      intro e he hPe rin hrin
      rw [hm1] at he
      rcases List.mem_map.mp he with ⟨a, ha, rfl⟩
      have haex : a ∈ ex := List.mem_of_mem_filter ha
      have hasrc : a.source = some S' := by simpa using hPe
      exact fun h => (hnocol a haex hasrc rin hrin) h.symm
    have hfilter := insertRoutes_filter_P rs
      (insertRoutes []
        (ex.filter (fun r => !((rs.map (fun r => r.source)).contains r.source))))
      (fun r => r.source == some S') hPrs hmP
    rw [hm1vals] at hfilter
    rw [hfilter, List.filter_filter]
    apply List.filter_congr
    intro r hr
    cases hP : (r.source == some S') with
    | false => rw [Bool.false_and]
    | true =>
      have hrsrc : r.source = some S' := by simpa using hP
      rw [Bool.true_and, hrsrc, hcont]
      rfl
  · -- every stored route of source S comes from the incoming batch
    intro r hrm hrsrc
    rcases insertRoutes_values_mem rs _ r hrm with h | h
    · rw [hm1vals] at h
      have hQ := List.of_mem_filter h
      have hmem : some S ∈ rs.map (fun r => r.source) := by
        cases rs with
        | nil => exact absurd rfl hne
        | cons a l => exact List.mem_map.mpr ⟨a, by simp, hsrc a (by simp)⟩
      have hcontS : ((rs.map (fun r => r.source)).contains (some S)) = true :=
        List.elem_iff.mpr hmem
      rw [hrsrc, hcontS] at hQ
      exact absurd hQ (by decide)
    · exact h
  · omega

/-- C1 witness: the amended statement at the concrete counterexample
state — the tunnel route is preserved, the only agent route comes from
the batch, and the shared key now expires at `0 + 600`. -/
theorem C1_register_refreshes_shared_ttl_witness :
    ∃ stored : List Route,
      (RoutesState.mk
        [("routes:u1",
          ⟨[{ ip := "10.77.0.1", port := 443, priority := 2,
              source := some "tunnel" },
            { ip := "1.1.1.1", port := 443, priority := 1,
              source := some "agent" }], 600⟩)]
        [("u1", 0)]).kv.find? (fun e => e.1 == getRoutesKey "u1")
        = some (getRoutesKey "u1", ⟨stored, 0 + 600⟩)
      ∧ stored.filter (fun r => r.source == some "tunnel")
          = [({ ip := "10.77.0.1", port := 443, priority := 2,
                source := some "tunnel" } : Route)].filter
              (fun r => r.source == some "tunnel")
      ∧ (∀ r ∈ stored, r.source = some "agent" →
          r ∈ [({ ip := "1.1.1.1", port := 443, priority := 1,
                  source := some "agent" } : Route)])
      ∧ ((100 : Int) - 0 ≤ 600 → (100 : Int) ≤ 0 + 600) :=
  C1_register_refreshes_shared_ttl 600 0 "u1" "agent" "tunnel"
    [{ ip := "1.1.1.1", port := 443, priority := 1, source := some "agent" }]
    ⟨[("routes:u1",
        ⟨[{ ip := "10.77.0.1", port := 443, priority := 2,
            source := some "tunnel" }], 100⟩)], []⟩
    ⟨[("routes:u1",
        ⟨[{ ip := "10.77.0.1", port := 443, priority := 2,
            source := some "tunnel" },
          { ip := "1.1.1.1", port := 443, priority := 1,
            source := some "agent" }], 600⟩)],
      [("u1", 0)]⟩
    [{ ip := "10.77.0.1", port := 443, priority := 2,
       source := some "tunnel" }] 100
    rfl (by decide) rfl (by decide) (by decide) (by decide) (by decide)

/-! ## Activity tracking (Routes.ts:201-278) -/

/-- Models `redis.zrem`: remove a member from the sorted set. -/
def zrem (activity : List (String × Int)) (member : String) :
    List (String × Int) :=
  activity.filter (fun e => e.1 != member)

/-- Models `redis.zscore` as used by `getActivityTimestamp`. -/
def zscore (activity : List (String × Int)) (member : String) : Option Int :=
  (activity.find? (fun e => e.1 == member)).map (fun e => e.2)

/-- Embeds `getActiveUserIds` (Routes.ts:226-232):
`zrangebyscore threshold +inf` — the lower bound is inclusive. -/
def getActiveUserIds (now days : Int) (activity : List (String × Int)) :
    List String :=
  let threshold := now - days * 24 * 60 * 60 * 1000
  (activity.filter (fun e => threshold ≤ e.2)).map (fun e => e.1)

/-- Embeds `getInactiveUserIds` (Routes.ts:240-246):
`zrangebyscore 0 threshold` — both bounds inclusive. -/
def getInactiveUserIds (now days : Int) (activity : List (String × Int)) :
    List String :=
  let threshold := now - days * 24 * 60 * 60 * 1000
  (activity.filter (fun e => (0 ≤ e.2) && (e.2 ≤ threshold))).map (fun e => e.1)

/-- C10: a user whose activity score is exactly `now − days·86400000`
(a nonnegative instant, as `Date.now()` values are) is returned by BOTH
`getActiveUserIds` and `getInactiveUserIds`: both `zrangebyscore` bounds
are inclusive, so the two result sets overlap at the threshold instead
of partitioning the users. -/
theorem C10_threshold_user_in_both_queries (now days t : Int) (uid : String)
    (activity : List (String × Int)) (hmem : (uid, t) ∈ activity)
    (ht : t = now - days * 24 * 60 * 60 * 1000) (hpos : 0 ≤ t) :
    uid ∈ getActiveUserIds now days activity
    ∧ uid ∈ getInactiveUserIds now days activity := by
  constructor
  · exact List.mem_map.mpr ⟨(uid, t),
      List.mem_filter.mpr ⟨hmem, by simp [← ht]⟩, rfl⟩
  · exact List.mem_map.mpr ⟨(uid, t),
      List.mem_filter.mpr ⟨hmem, by simp [← ht, hpos]⟩, rfl⟩

/-- C10 witness: score 5 at `now = 30·86400000 + 5`, 30 days. -/
theorem C10_threshold_user_in_both_queries_witness :
    "u1" ∈ getActiveUserIds 2592000005 30 [("u1", 5)]
    ∧ "u1" ∈ getInactiveUserIds 2592000005 30 [("u1", 5)] :=
  C10_threshold_user_in_both_queries 2592000005 30 5 "u1" [("u1", 5)]
    (by decide) (by decide) (by decide)

/-! ## DomainCleanup.ts -/

/-- One audit line `RELEASED <domain> from <userId> (inactive N days)`
written by `logDomainReleased`. -/
structure ReleaseLog where
  domainName : String
  userId : String
  inactiveDays : Int
  deriving DecidableEq, Repr

/-- The state touched by the cleanup controller: the Firestore identity
collection, the activity sorted set, and the audit log. -/
structure CleanupState where
  fs : Firestore
  activity : List (String × Int)
  log : List ReleaseLog
  deriving DecidableEq

structure CleanupResult where
  releasedCount : Nat
  domains : List String
  deriving DecidableEq, Repr

/-- One iteration of the `for` loop of `runCleanup`
(DomainCleanup.ts:35-70).  An empty user id makes `getUserDomain` throw;
the per-user `try/catch` swallows the error and the loop continues with
nothing changed, so that case is the identity.  Every other branch
removes the user from activity tracking; the release branch also clears
the domain fields (`clearDomainAssignment`) and appends an audit line.
`Math.floor((Date.now() - ts) / 86400000)` is floored division; a stored
timestamp of `0` is falsy in JS, so it falls back to the configured
threshold. -/
def cleanupStep (now days : Int) (s : CleanupState) (rel : List String)
    (userId : String) : CleanupState × List String :=
  if userId = "" then (s, rel)
  else
    match (s.fs.find? (fun e => e.1 == userId)).map (fun e => e.2) with
    | none => ({ s with activity := zrem s.activity userId }, rel)
    | some data =>
      match data.domainName with
      | none => ({ s with activity := zrem s.activity userId }, rel)
      | some d =>
        if d = "" then ({ s with activity := zrem s.activity userId }, rel)
        else
          let actualInactiveDays :=
            match zscore s.activity userId with
            | some t => if t ≠ 0 then (now - t).fdiv 86400000 else days
            | none => days
          ({ fs := s.fs.map (fun e => if e.1 == userId then
                (e.1, { e.2 with domainName := none, publicKey := none })
              else e),
             activity := zrem s.activity userId,
             log := s.log ++ [⟨d, userId, actualInactiveDays⟩] },
           rel ++ [d])

/-- Embeds `runCleanup` (DomainCleanup.ts:24-78). -/
def runCleanup (now days : Int) (s : CleanupState) :
    CleanupState × CleanupResult :=
  let r := (getInactiveUserIds now days s.activity).foldl
    (fun acc uid => cleanupStep now days acc.1 acc.2 uid) (s, [])
  (r.1, ⟨r.2.length, r.2⟩)

theorem mem_zrem (l : List (String × Int)) (uid : String) (e : String × Int)
    (h : e ∈ zrem l uid) : e ∈ l ∧ e.1 ≠ uid := by
  unfold zrem at h
  have h' := List.mem_filter.mp h
  exact ⟨h'.1, by simpa using h'.2⟩

theorem cleanupStep_activity_sub (now days : Int) (s : CleanupState)
    (rel : List String) (uid : String) :
    ∀ e ∈ (cleanupStep now days s rel uid).1.activity, e ∈ s.activity := by
  intro e he
  unfold cleanupStep at he
  split at he
  · exact he
  · split at he
    · exact (mem_zrem _ _ _ he).1
    · split at he
      · exact (mem_zrem _ _ _ he).1
      · split at he
        · exact (mem_zrem _ _ _ he).1
        · exact (mem_zrem _ _ _ he).1

theorem cleanupStep_removes (now days : Int) (s : CleanupState)
    (rel : List String) (uid : String) (hne : uid ≠ "") :
    ∀ e ∈ (cleanupStep now days s rel uid).1.activity, e.1 ≠ uid := by
  intro e he
  unfold cleanupStep at he
  rw [if_neg hne] at he
  split at he
  · exact (mem_zrem _ _ _ he).2
  · split at he
    · exact (mem_zrem _ _ _ he).2
    · split at he
      · exact (mem_zrem _ _ _ he).2
      · exact (mem_zrem _ _ _ he).2

theorem cleanupStep_empty (now days : Int) (s : CleanupState)
    (rel : List String) : cleanupStep now days s rel "" = (s, rel) := by
  unfold cleanupStep
  simp

theorem cleanupFold_activity_sub (now days : Int) (l : List String) :
    ∀ acc : CleanupState × List String,
    ∀ e ∈ (l.foldl (fun acc uid => cleanupStep now days acc.1 acc.2 uid)
      acc).1.activity, e ∈ acc.1.activity := by
  induction l with
  | nil => exact fun acc e he => he
  | cons uid l ih =>
    intro acc e he
    simp only [List.foldl_cons] at he
    exact cleanupStep_activity_sub now days acc.1 acc.2 uid e
      (ih (cleanupStep now days acc.1 acc.2 uid) e he)

theorem cleanupFold_removes (now days : Int) (l : List String) :
    ∀ acc : CleanupState × List String, ∀ uid ∈ l, uid ≠ "" →
    ∀ e ∈ (l.foldl (fun acc uid => cleanupStep now days acc.1 acc.2 uid)
      acc).1.activity, e.1 ≠ uid := by
  induction l with
  | nil => intro acc uid h; cases h
  | cons u0 l ih =>
    intro acc uid hmem hne e he
    simp only [List.foldl_cons] at he
    rcases List.mem_cons.mp hmem with h | h
    · subst h
      exact cleanupStep_removes now days acc.1 acc.2 uid hne e
        (cleanupFold_activity_sub now days l
          (cleanupStep now days acc.1 acc.2 uid) e he)
    · exact ih _ uid h hne e he

theorem cleanupFold_all_empty (now days : Int) (l : List String)
    (h : ∀ uid ∈ l, uid = "") :
    ∀ acc : CleanupState × List String,
    l.foldl (fun acc uid => cleanupStep now days acc.1 acc.2 uid) acc = acc := by
  induction l with
  | nil => exact fun acc => rfl
  | cons u0 l ih =>
    intro acc
    have hu := h u0 (by simp)
    simp only [List.foldl_cons, hu, cleanupStep_empty]
    exact ih (fun uid h' => h uid (by simp [h'])) acc

theorem runCleanup_eq_of_fold_fixed (now days : Int) (s : CleanupState)
    (h : (getInactiveUserIds now days s.activity).foldl
        (fun acc uid => cleanupStep now days acc.1 acc.2 uid) (s, [])
      = (s, [])) :
    runCleanup now days s = (s, ⟨0, []⟩) := by
  unfold runCleanup
  rw [h]
  rfl

/-- C8: the cleanup pass is idempotent — running it immediately again on
the state the first run produced (same clock, no new expirations)
releases nothing and returns `releasedCount = 0`, because every user id
the first run could process was removed from the activity sorted set
(the only ids left in the inactive range are the degenerate empty id,
whose per-user pipeline errors out and changes nothing in either run). -/
theorem C8_cleanup_idempotent (now days : Int) (s : CleanupState) :
    runCleanup now days (runCleanup now days s).1
      = ((runCleanup now days s).1, ⟨0, []⟩) := by
  have hids : ∀ uid ∈ getInactiveUserIds now days
      ((runCleanup now days s).1).activity, uid = "" := by
    intro uid hu
    unfold getInactiveUserIds at hu
    rcases List.mem_map.mp hu with ⟨e, hef, rfl⟩
    have hef' := List.mem_filter.mp hef
    have h1 : e ∈ ((getInactiveUserIds now days s.activity).foldl
        (fun acc uid => cleanupStep now days acc.1 acc.2 uid)
        (s, [])).1.activity := hef'.1
    by_contra hne
    have hes : e ∈ s.activity :=
      cleanupFold_activity_sub now days
        (getInactiveUserIds now days s.activity) (s, []) e h1
    have hid : e.1 ∈ getInactiveUserIds now days s.activity := by
      unfold getInactiveUserIds
      exact List.mem_map.mpr ⟨e, List.mem_filter.mpr ⟨hes, hef'.2⟩, rfl⟩
    exact cleanupFold_removes now days
      (getInactiveUserIds now days s.activity) (s, []) e.1 hid hne e h1 rfl
  exact runCleanup_eq_of_fold_fixed now days _
    (cleanupFold_all_empty now days _ hids _)

/-! ## CertificateAuthority.ts -/

/-- A parsed CSR: the outcome of `csr.verify()`, the subject attributes
(name/value pairs, `CN` looked up by `getField('CN')`), and an opaque
public-key identifier. -/
structure CSR where
  verifyOk : Bool
  subject : List (String × String)
  publicKey : Nat
  deriving DecidableEq, Repr

/-- One `subjectAltName` entry: `{type: 2, value}` is a DNS name,
`{type: 7, ip}` an IP address. -/
inductive AltName where
  | dns (value : String)
  | ip (value : String)
  deriving DecidableEq, Repr

/-- The leaf certificate fields `signCSR` fills in. -/
structure Cert where
  serialNumber : String
  notBefore : Int
  notAfter : Int
  subject : List (String × String)
  issuer : List (String × String)
  publicKey : Nat
  altNames : List AltName
  deriving DecidableEq, Repr

/-- The module CA state after `initializeCA` (cert and key are set
together, so one `Option` models `caCert !== null && caKey !== null`). -/
structure CAInfo where
  subject : List (String × String)
  deriving DecidableEq, Repr

def hexDigitOfNat (n : Nat) : Char :=
  if n < 10 then Char.ofNat ('0'.toNat + n) else Char.ofNat ('a'.toNat + (n - 10))

/-- Models `forge.util.bytesToHex` on one byte: two lowercase hex digits. -/
def byteToHex (b : Nat) : String :=
  String.mk [hexDigitOfNat (b / 16 % 16), hexDigitOfNat (b % 16)]

/-- Models `forge.util.bytesToHex` over the byte string (concatenation of the
per-byte digits). -/
def bytesToHex : List Nat → String
  | [] => ""
  | b :: rest => byteToHex b ++ bytesToHex rest

/-- The "Build comprehensive SANs" block of `signCSR`
(CertificateAuthority.ts:246-279): the `*.serverDomain` wildcard when
the env var is configured, always `*.nip.io`, and `IP:<publicIp>` last
when a truthy `publicIp` was passed. -/
def buildAltNames (serverDomain : Option String) (publicIp : Option String) :
    List AltName :=
  (match serverDomain with
   | some sd => [AltName.dns ("*." ++ sd)]
   | none => [])
  ++ [AltName.dns "*.nip.io"]
  ++ (match publicIp with
      | some p => if p = "" then [] else [AltName.ip p]
      | none => [])

/-- Embeds `signCSR` (CertificateAuthority.ts:166-297).  Out-of-process inputs
are explicit: `ca` is the module state (`none` before `initializeCA`),
`serverDomain` the result of `getServerDomain()` (`none` when the env
var is unset and the call throws — caught, and the wildcard SAN is
skipped), `validityHours` is `CERT_VALIDITY_HOURS`, `now` the clock,
`randomBytes` the 15 bytes from `forge.random.getBytesSync(15)`, and
`csrParse` the result of `certificationRequestFromPem` (`none` = parse
failure).  Returns `{certificate, expiresAt}`. -/
def signCSR (ca : Option CAInfo) (serverDomain : Option String)
    (validityHours now : Int) (randomBytes : List Nat)
    (csrParse : Option CSR) (userId : String) (publicIp : Option String) :
    Except String (Cert × Int) :=
  match ca with
  | none => .error "Certificate Authority not initialized"
  | some caInfo =>
    match csrParse with
    | none => .error "Invalid CSR format"
    | some csr =>
      if !csr.verifyOk then .error "CSR signature verification failed"
      else
        let cn := (csr.subject.find? (fun a => a.1 == "CN")).map (fun a => a.2)
        if cn ≠ some userId then
          .error ("CSR Common Name (" ++ cn.getD "null"
            ++ ") does not match userId (" ++ userId ++ ")")
        else
          let serial := "00" ++ bytesToHex randomBytes
          let expiresAt := now + validityHours * 60 * 60 * 1000
          let altNames := buildAltNames serverDomain publicIp
          .ok ({ serialNumber := serial, notBefore := now,
                 notAfter := expiresAt, subject := csr.subject,
                 issuer := caInfo.subject, publicKey := csr.publicKey,
                 altNames := altNames }, expiresAt)

/-- The JSON body of `POST /cert/{userId}/{sig}`.  `csr := none` models
an absent (or falsy) `csr` field; `csr := some p` carries the parse
outcome `p` of the supplied PEM. -/
structure CertRequestBody where
  csr : Option (Option CSR) := none
  publicIp : Option String := none
  deriving DecidableEq, Repr

structure CertResponse where
  status : Nat
  certificate : Option Cert := none
  expiresAt : Option Int := none
  caCertificate : Option String := none
  error : Option String := none
  deriving DecidableEq, Repr

/-- The `POST /cert/:userid/:sig` handler (RouterAPI.ts:447-507).  The
handler destructures only `{ csr }` from the body and calls
`signCSR(csr, userid)` — `publicIp` is never forwarded.  `sigResult` is
the outcome of `verifySignature` (`none`: it threw on a malformed
signature). -/
def certEndpoint (ca : Option CAInfo) (caCertPem : String)
    (serverDomain : Option String) (validityHours now : Int)
    (randomBytes : List Nat) (user : Option NSLRouterData)
    (sigResult : Option Bool) (body : CertRequestBody) (userId : String) :
    CertResponse :=
  match ca with
  | none => { status := 503, error := some "Certificate Authority not initialized" }
  | some _ =>
    match body.csr with
    | none => { status := 400, error := some "CSR is required in request body" }
    | some csrParse =>
      match user with
      | none =>
        { status := 404,
          error := some "User not found. Register a domain first." }
      | some _ =>
        match sigResult with
        | none => { status := 401, error := some "Invalid signature." }
        | some false => { status := 401, error := some "Invalid signature." }
        | some true =>
          match signCSR ca serverDomain validityHours now randomBytes
              csrParse userId none with
          | .ok (cert, expiresAt) =>
            { status := 200, certificate := some cert,
              expiresAt := some expiresAt, caCertificate := some caCertPem }
          | .error e =>
            if strIncludes e "CSR Common Name" then
              { status := 400, error := some e }
            else if strIncludes e "Invalid CSR" then
              { status := 400, error := some e }
            else if strIncludes e "CSR signature verification" then
              { status := 400, error := some e }
            else { status := 500, error := some e }

/-! ## Claims C5, C9, C2 about the CA -/

/-- Inversion for a successful `signCSR`: the certificate has exactly
the fields the code fills in. -/
theorem signCSR_ok_shape (ca : Option CAInfo) (serverDomain : Option String)
    (validityHours now : Int) (randomBytes : List Nat)
    (csrParse : Option CSR) (userId : String) (publicIp : Option String)
    (cert : Cert) (expiresAt : Int)
    (h : signCSR ca serverDomain validityHours now randomBytes csrParse
      userId publicIp = .ok (cert, expiresAt)) :
    ∃ caInfo csr, ca = some caInfo ∧ csrParse = some csr ∧
      cert = { serialNumber := "00" ++ bytesToHex randomBytes,
               notBefore := now,
               notAfter := now + validityHours * 60 * 60 * 1000,
               subject := csr.subject, issuer := caInfo.subject,
               publicKey := csr.publicKey,
               altNames := buildAltNames serverDomain publicIp }
      ∧ expiresAt = now + validityHours * 60 * 60 * 1000 := by
  cases ca with
  | none => simp [signCSR] at h
  | some caInfo =>
    cases csrParse with
    | none => simp [signCSR] at h
    | some csr =>
      refine ⟨caInfo, csr, rfl, rfl, ?_⟩
      simp only [signCSR] at h
      cases hver : csr.verifyOk with
      | false => rw [hver] at h; simp at h
      | true =>
        rw [hver] at h
        simp only [Bool.not_true, Bool.false_eq_true, if_false] at h
        split at h
        · simp at h
        · rw [Except.ok.injEq, Prod.mk.injEq] at h
          exact ⟨h.1.symm, h.2.symm⟩

theorem buildAltNames_nipio (serverDomain publicIp : Option String) :
    AltName.dns "*.nip.io" ∈ buildAltNames serverDomain publicIp := by
  unfold buildAltNames
  exact List.mem_append_left _ (List.mem_append_right _ (by simp))

theorem buildAltNames_no_ip (serverDomain : Option String) (p : String) :
    AltName.ip p ∉ buildAltNames serverDomain none := by
  intro hp
  unfold buildAltNames at hp
  cases serverDomain with
  | none => simp at hp
  | some sd => simp at hp

theorem buildAltNames_ip_last (serverDomain : Option String) (p : String)
    (hp : p ≠ "") :
    (buildAltNames serverDomain (some p)).getLast? = some (AltName.ip p) := by
  simp only [buildAltNames]
  rw [if_neg hp]
  cases serverDomain with
  | none => rfl
  | some sd => rfl

theorem bytesToHex_length (l : List Nat) : (bytesToHex l).length = 2 * l.length := by
  induction l with
  | nil => rfl
  | cons b l ih =>
    show (byteToHex b ++ bytesToHex l).length = 2 * (l.length + 1)
    rw [String.length_append, ih,
      show (byteToHex b).length = 2 from rfl]
    omega

/-- C5: every certificate `signCSR` returns has `notBefore = now`,
`notAfter = now + CERT_VALIDITY_HOURS` hours exactly (so the claim's
±1 s slack holds with slack zero), and a SAN list containing
`DNS:*.nip.io`. -/
theorem C5_signCSR_validity_and_nipio (ca : Option CAInfo)
    (serverDomain : Option String) (validityHours now : Int)
    (randomBytes : List Nat) (csrParse : Option CSR) (userId : String)
    (publicIp : Option String) (cert : Cert) (expiresAt : Int)
    (h : signCSR ca serverDomain validityHours now randomBytes csrParse
      userId publicIp = .ok (cert, expiresAt)) :
    cert.notBefore = now
    ∧ cert.notAfter = now + validityHours * 60 * 60 * 1000
    ∧ cert.notAfter - cert.notBefore = validityHours * 60 * 60 * 1000
    ∧ AltName.dns "*.nip.io" ∈ cert.altNames := by
  obtain ⟨caInfo, csr, _, _, hc, _⟩ :=
    signCSR_ok_shape ca serverDomain validityHours now randomBytes csrParse
      userId publicIp cert expiresAt h
  subst hc
  refine ⟨rfl, rfl, ?_, buildAltNames_nipio serverDomain publicIp⟩
  show (now + validityHours * 60 * 60 * 1000) - now
    = validityHours * 60 * 60 * 1000
  omega

/-- C5 witness: a concrete signing with the default 72 hours. -/
theorem C5_signCSR_validity_and_nipio_witness :
    (Cert.mk "00000000000000000000000000000000" 0 259200000 [("CN", "u1")]
      [("CN", "Mesh Router CA")] 1
      [AltName.dns "*.nsl.sh", AltName.dns "*.nip.io"]).notBefore = 0
    ∧ (Cert.mk "00000000000000000000000000000000" 0 259200000 [("CN", "u1")]
      [("CN", "Mesh Router CA")] 1
      [AltName.dns "*.nsl.sh", AltName.dns "*.nip.io"]).notAfter
        = 0 + 72 * 60 * 60 * 1000
    ∧ (Cert.mk "00000000000000000000000000000000" 0 259200000 [("CN", "u1")]
      [("CN", "Mesh Router CA")] 1
      [AltName.dns "*.nsl.sh", AltName.dns "*.nip.io"]).notAfter
        - (Cert.mk "00000000000000000000000000000000" 0 259200000 [("CN", "u1")]
          [("CN", "Mesh Router CA")] 1
          [AltName.dns "*.nsl.sh", AltName.dns "*.nip.io"]).notBefore
        = 72 * 60 * 60 * 1000
    ∧ AltName.dns "*.nip.io"
        ∈ (Cert.mk "00000000000000000000000000000000" 0 259200000 [("CN", "u1")]
          [("CN", "Mesh Router CA")] 1
          [AltName.dns "*.nsl.sh", AltName.dns "*.nip.io"]).altNames :=
  C5_signCSR_validity_and_nipio (some ⟨[("CN", "Mesh Router CA")]⟩)
    (some "nsl.sh") 72 0 (List.replicate 15 0)
    (some ⟨true, [("CN", "u1")], 1⟩) "u1" none _ 259200000 rfl

/-- C9 counterexample: at a concrete signing the serial number is 32 hex
characters long, not 31 — "00" (2 chars) plus 15 bytes at 2 hex digits
each (30 chars). -/
theorem C9_counterexample_serial_length :
    (match signCSR (some ⟨[("CN", "Mesh Router CA")]⟩) (some "nsl.sh") 72 0
        (List.replicate 15 0) (some ⟨true, [("CN", "u1")], 1⟩) "u1" none with
      | .ok (cert, _) => cert.serialNumber.length
      | .error _ => 0) = 32 ∧ (32 : Nat) ≠ 31 := ⟨rfl, by decide⟩

/-- C9 amended: the serial is the literal `"00"` followed by 15 random
bytes hex-encoded — 32 hex characters, not 31. -/
theorem C9_serial_32_hex (ca : Option CAInfo) (serverDomain : Option String)
    (validityHours now : Int) (randomBytes : List Nat)
    (csrParse : Option CSR) (userId : String) (publicIp : Option String)
    (cert : Cert) (expiresAt : Int) (hlen : randomBytes.length = 15)
    (h : signCSR ca serverDomain validityHours now randomBytes csrParse
      userId publicIp = .ok (cert, expiresAt)) :
    cert.serialNumber = "00" ++ bytesToHex randomBytes
    ∧ cert.serialNumber.length = 32 := by
  obtain ⟨caInfo, csr, _, _, hc, _⟩ :=
    signCSR_ok_shape ca serverDomain validityHours now randomBytes csrParse
      userId publicIp cert expiresAt h
  subst hc
  refine ⟨rfl, ?_⟩
  show ("00" ++ bytesToHex randomBytes).length = 32
  rw [String.length_append, bytesToHex_length, hlen]
  rfl

/-- C9 witness: the concrete serial from 15 zero bytes. -/
theorem C9_serial_32_hex_witness :
    (List.replicate 15 0).length = 15
    ∧ ((match signCSR (some ⟨[("CN", "Mesh Router CA")]⟩) (some "nsl.sh") 72 0
        (List.replicate 15 0) (some ⟨true, [("CN", "u1")], 1⟩) "u1" none with
      | .ok (cert, _) => cert.serialNumber
      | .error _ => "") = "00" ++ bytesToHex (List.replicate 15 0)) :=
  ⟨rfl, by
    have h := C9_serial_32_hex (some ⟨[("CN", "Mesh Router CA")]⟩)
      (some "nsl.sh") 72 0 (List.replicate 15 0)
      (some ⟨true, [("CN", "u1")], 1⟩) "u1" none _ 259200000 rfl rfl
    exact h.1⟩

theorem signCSR_none_no_ip (ca : Option CAInfo) (serverDomain : Option String)
    (validityHours now : Int) (randomBytes : List Nat)
    (csrParse : Option CSR) (userId : String) (cert : Cert) (expiresAt : Int)
    (h : signCSR ca serverDomain validityHours now randomBytes csrParse
      userId none = .ok (cert, expiresAt)) :
    ∀ p, AltName.ip p ∉ cert.altNames := by
  obtain ⟨caInfo, csr, _, _, hc, _⟩ :=
    signCSR_ok_shape ca serverDomain validityHours now randomBytes csrParse
      userId none cert expiresAt h
  subst hc
  exact fun p => buildAltNames_no_ip serverDomain p

theorem signCSR_some_ip_last (ca : Option CAInfo)
    (serverDomain : Option String) (validityHours now : Int)
    (randomBytes : List Nat) (csrParse : Option CSR) (userId : String)
    (p : String) (cert : Cert) (expiresAt : Int) (hp : p ≠ "")
    (h : signCSR ca serverDomain validityHours now randomBytes csrParse
      userId (some p) = .ok (cert, expiresAt)) :
    cert.altNames.getLast? = some (AltName.ip p) := by
  obtain ⟨caInfo, csr, _, _, hc, _⟩ :=
    signCSR_ok_shape ca serverDomain validityHours now randomBytes csrParse
      userId (some p) cert expiresAt h
  subst hc
  exact buildAltNames_ip_last serverDomain p hp

theorem certEndpoint_ok_cert (ca : Option CAInfo) (caCertPem : String)
    (serverDomain : Option String) (validityHours now : Int)
    (randomBytes : List Nat) (user : Option NSLRouterData)
    (sigResult : Option Bool) (body : CertRequestBody) (userId : String)
    (cert : Cert)
    (h : (certEndpoint ca caCertPem serverDomain validityHours now
      randomBytes user sigResult body userId).certificate = some cert) :
    ∃ csrParse expiresAt,
      signCSR ca serverDomain validityHours now randomBytes csrParse userId
        none = .ok (cert, expiresAt) := by
  cases ca with
  | none => simp [certEndpoint] at h
  | some caInfo =>
    cases hb : body.csr with
    | none => simp [certEndpoint, hb] at h
    | some csrParse =>
      cases user with
      | none => simp [certEndpoint, hb] at h
      | some u =>
        cases sigResult with
        | none => simp [certEndpoint, hb] at h
        | some b =>
          cases b with
          | false => simp [certEndpoint, hb] at h
          | true =>
            simp only [certEndpoint, hb] at h
            cases hs : signCSR (some caInfo) serverDomain validityHours now
                randomBytes csrParse userId none with
            | ok pr =>
              obtain ⟨c2, e2⟩ := pr
              rw [hs] at h
              simp at h
              rw [h] at hs
              exact ⟨csrParse, e2, hs⟩
            | error e =>
              rw [hs] at h
              cases hc1 : strIncludes e "CSR Common Name" with
              | true => simp [hc1] at h
              | false =>
                cases hc2 : strIncludes e "Invalid CSR" with
                | true => simp [hc1, hc2] at h
                | false =>
                  cases hc3 : strIncludes e "CSR signature verification" with
                  | true => simp [hc1, hc2, hc3] at h
                  | false => simp [hc1, hc2, hc3] at h

/-- C2 counterexample: a fully authorized `POST /cert` request whose
body supplies `publicIp = "1.2.3.4"` succeeds (HTTP 200), yet the issued
certificate's SAN list is the DNS wildcards only — it does NOT contain
`IP:1.2.3.4`, because the handler never forwards `publicIp` to
`signCSR`. -/
theorem C2_counterexample_publicIp_dropped :
    (certEndpoint (some ⟨[("CN", "Mesh Router CA")]⟩) "CAPEM" (some "nsl.sh")
      72 0 (List.replicate 15 0)
      (some { domainName := some "alice", publicKey := some "PK" })
      (some true)
      { csr := some (some ⟨true, [("CN", "u1")], 1⟩),
        publicIp := some "1.2.3.4" } "u1").status = 200
    ∧ (certEndpoint (some ⟨[("CN", "Mesh Router CA")]⟩) "CAPEM"
      (some "nsl.sh") 72 0 (List.replicate 15 0)
      (some { domainName := some "alice", publicKey := some "PK" })
      (some true)
      { csr := some (some ⟨true, [("CN", "u1")], 1⟩),
        publicIp := some "1.2.3.4" } "u1").certificate
      = some (Cert.mk "00000000000000000000000000000000" 0 259200000
          [("CN", "u1")] [("CN", "Mesh Router CA")] 1
          [AltName.dns "*.nsl.sh", AltName.dns "*.nip.io"])
    ∧ AltName.ip "1.2.3.4"
        ∉ [AltName.dns "*.nsl.sh", AltName.dns "*.nip.io"] :=
  ⟨rfl, rfl, by decide⟩

/-- C2 amended: the `POST /cert` handler ignores any `publicIp` in the
request body — it calls `signCSR` without it, so no certificate issued
through the endpoint carries an IP SAN entry; `IP:<publicIp>` appears
(as the last SAN entry, after the DNS wildcards) only when `signCSR`
itself is invoked with a non-empty `publicIp` argument. -/
theorem C2_cert_endpoint_ignores_publicIp (ca : Option CAInfo)
    (caCertPem : String) (serverDomain : Option String)
    (validityHours now : Int) (randomBytes : List Nat)
    (user : Option NSLRouterData) (sigResult : Option Bool)
    (body : CertRequestBody) (userId : String) (cert : Cert)
    (hcert : (certEndpoint ca caCertPem serverDomain validityHours now
      randomBytes user sigResult body userId).certificate = some cert) :
    (∀ p, AltName.ip p ∉ cert.altNames)
    ∧ ∀ (csrParse : Option CSR) (p : String) (c : Cert) (e : Int), p ≠ "" →
        signCSR ca serverDomain validityHours now randomBytes csrParse userId
          (some p) = .ok (c, e) →
        c.altNames.getLast? = some (AltName.ip p) := by
  constructor
  · obtain ⟨csrParse, e, hs⟩ := certEndpoint_ok_cert ca caCertPem serverDomain
      validityHours now randomBytes user sigResult body userId cert hcert
    exact signCSR_none_no_ip ca serverDomain validityHours now randomBytes
      csrParse userId cert e hs
  · intro csrP p c e hp hs
    exact signCSR_some_ip_last ca serverDomain validityHours now randomBytes
      csrP userId p c e hp hs

/-- C2 witness: the amended statement at the concrete request above. -/
theorem C2_cert_endpoint_ignores_publicIp_witness :
    (∀ p, AltName.ip p
      ∉ (Cert.mk "00000000000000000000000000000000" 0 259200000
          [("CN", "u1")] [("CN", "Mesh Router CA")] 1
          [AltName.dns "*.nsl.sh", AltName.dns "*.nip.io"]).altNames)
    ∧ ∀ (csrParse : Option CSR) (p : String) (c : Cert) (e : Int), p ≠ "" →
        signCSR (some ⟨[("CN", "Mesh Router CA")]⟩) (some "nsl.sh") 72 0
          (List.replicate 15 0) csrParse "u1" (some p) = .ok (c, e) →
        c.altNames.getLast? = some (AltName.ip p) :=
  C2_cert_endpoint_ignores_publicIp (some ⟨[("CN", "Mesh Router CA")]⟩)
    "CAPEM" (some "nsl.sh") 72 0 (List.replicate 15 0)
    (some { domainName := some "alice", publicKey := some "PK" })
    (some true)
    { csr := some (some ⟨true, [("CN", "u1")], 1⟩),
      publicIp := some "1.2.3.4" } "u1"
    (Cert.mk "00000000000000000000000000000000" 0 259200000
      [("CN", "u1")] [("CN", "Mesh Router CA")] 1
      [AltName.dns "*.nsl.sh", AltName.dns "*.nip.io"]) rfl

end MeshRouter
